import Mathlib

/-!
A verification development for the Luau analysis sources: the cross-arena
type cloner (Analysis/src/Clone.cpp), several arms of the post-inference
validator (Analysis/src/TypeChecker2.cpp), the CLI compile-format lookup
(CLI/Compile.cpp), and the MTA script-type matcher (Analysis/include/Luau/Frontend.h).

The cloner is embedded over an explicit heap: type and pack nodes live in
lists indexed by natural numbers (the node identity, standing in for the
C++ pointer), and the destination arena's allocations append to those
lists.  The CloneState seen-maps are association lists.  The C++
RecursionLimiter (RecursionCounter.h, outside the provided sources)
increments a counter on entry to each clone frame and throws past the
limit; it is embedded as a fuel parameter that decreases on each nested
clone call, with fuel exhaustion returning a recursionLimit error.

The validator arms are embedded as pure functions parameterized by the
collaborating subsystems that live outside the provided sources (the
Unifier's isSubtype/tryUnify, the Normalizer's component queries): the
parameters stand for arbitrary results of those collaborators, and the
theorems quantify over them.
-/

namespace Luau

/-! ## Clone.cpp: the heap model -/

/-- Type-node kinds covered by the embedding.  The remaining kinds of the
source (FunctionType, ClassType, MetatableType, IntersectionType, the
blocked/pending/lazy/negation/family kinds) follow either the same
defaultClone shape as err/prim or the same register-then-recurse shape as
table, and are not needed by the claims. -/
inductive TyKind where
  | free
  | err
  | prim (tag : Nat)
  | bound (target : Nat)
  | union (options : List Nat)
  | table (props : List (String × Nat)) (boundTo : Option Nat)
  deriving DecidableEq, Repr

/-- A type node: its variant payload plus the persistent flag.  The
metadata the source also carries (documentationSymbol, owningArena, level)
is not observable by any claim and is omitted. -/
structure TyNode where
  kind : TyKind
  persistent : Bool
  deriving DecidableEq, Repr

/-- Pack-node kinds covered by the embedding (the family-instance pack is
omitted; it follows the TypePack register-then-recurse shape). -/
inductive PackKind where
  | errp
  | boundp (target : Nat)
  | variadic (ty : Nat) (hidden : Bool)
  | pack (head : List Nat) (tail : Option Nat)
  deriving DecidableEq, Repr

/-- A type-pack node. -/
structure PackNode where
  kind : PackKind
  persistent : Bool
  deriving DecidableEq, Repr

/-- The whole clone-relevant state: the type heap, the pack heap (source
nodes at their original indices, destination-arena allocations appended),
and the two seen-maps of CloneState. -/
structure CloneSt where
  tmem : List TyNode
  pmem : List PackNode
  seenTypes : List (Nat × Nat)
  seenTypePacks : List (Nat × Nat)
  deriving DecidableEq, Repr

/-- The two feature flags Clone.cpp branches on.
DebugLuauCopyBeforeNormalizing is a debug flag (off in production);
LuauCloneCyclicUnions is declared with default false at Clone.cpp:14. -/
structure Flags where
  debugLuauCopyBeforeNormalizing : Bool
  luauCloneCyclicUnions : Bool
  deriving DecidableEq, Repr

/-- Default flag values: both off. -/
def defaultFlags : Flags := ⟨false, false⟩

/-- LuauCloneCyclicUnions switched on, the rest default. -/
def cyclicUnionFlags : Flags := ⟨false, true⟩

/-- Failure modes of the embedded cloner: the RecursionLimitException of
the source, and an invalid-heap error that no well-formed run produces
(it stands for dereferencing a dangling id). -/
inductive CloneErr where
  | recursionLimit
  | invalid
  deriving DecidableEq, Repr

/-- FInt::LuauTypeCloneRecursionLimit, declared at Clone.cpp:13. -/
def LuauTypeCloneRecursionLimit : Nat := 300

/-- dest.addType: append a node, returning the new state and the fresh id. -/
def addTy (st : CloneSt) (n : TyNode) : CloneSt × Nat :=
  ({ st with tmem := st.tmem ++ [n] }, st.tmem.length)

/-- In-place update of a type node (asMutable / getMutable writes). -/
def setTy (st : CloneSt) (i : Nat) (n : TyNode) : CloneSt :=
  { st with tmem := st.tmem.set i n }

/-- dest.addTypePack. -/
def addPk (st : CloneSt) (n : PackNode) : CloneSt × Nat :=
  ({ st with pmem := st.pmem ++ [n] }, st.pmem.length)

/-- In-place update of a pack node. -/
def setPk (st : CloneSt) (i : Nat) (n : PackNode) : CloneSt :=
  { st with pmem := st.pmem.set i n }

/-- Association-list lookup used for the seen-maps. -/
def findSeen : List (Nat × Nat) → Nat → Option Nat
  | [], _ => none
  | (k, v) :: rest, t => if k = t then some v else findSeen rest t

/-- seenTypes[typeId] = cloned. -/
def insertSeenT (st : CloneSt) (k v : Nat) : CloneSt :=
  { st with seenTypes := (k, v) :: st.seenTypes }

/-- seenTypePacks[typePackId] = cloned. -/
def insertSeenP (st : CloneSt) (k v : Nat) : CloneSt :=
  { st with seenTypePacks := (k, v) :: st.seenTypePacks }

/-- TypeCloner::defaultClone: allocate a copy and register it. -/
def defaultCloneT (st : CloneSt) (t : Nat) (n : TyNode) : Except CloneErr CloneSt :=
  .ok (insertSeenT (addTy st n).1 t (addTy st n).2)

/-- TypePackCloner::defaultClone. -/
def defaultCloneP (st : CloneSt) (p : Nat) (n : PackNode) : Except CloneErr CloneSt :=
  .ok (insertSeenP (addPk st n).1 p (addPk st n).2)

/-!
The clone functions (Clone.cpp:470 and Clone.cpp:488), with the visitor
bodies of TypeCloner and TypePackCloner inlined at the match on the node
kind.  Shapes faithful to the source:
 * the persistent check precedes the recursion limiter, which precedes
   the seen-map lookup;
 * the C++ `TypePackId& res = seen[id]` reference is read again after the
   visitor ran, so the returned id is whatever the visitor left in the
   seen-map for this id (a visitor that did not register anything would
   leave the null reference: embedded as the invalid error);
 * the bound visitors clone the target and register the target's clone
   (flattening), unless DebugLuauCopyBeforeNormalizing asks for a fresh
   indirection;
 * the union visitor under LuauCloneCyclicUnions registers a fresh free
   placeholder before cloning the options and then overwrites it in
   place; under the default flag it clones the options first and only
   then allocates and registers the clone;
 * the table visitor without the debug flag forwards a bound table to the
   clone of its boundTo target; otherwise it allocates a shallow copy,
   registers it, and then overwrites props (and boundTo under the debug
   flag) with their clones;
 * the pack visitor for TypePack allocates an empty pack, registers it,
   and then fills head and tail with their clones.
The source's copy of documentationSymbol onto a fresh clone has no
observable counterpart here (the field is not modelled).
-/

mutual

def cloneType (flags : Flags) (fuel : Nat) (t : Nat) (st : CloneSt) :
    Except CloneErr (Nat × CloneSt) :=
  match st.tmem[t]? with
  | none => .error .invalid
  | some node =>
    if node.persistent then .ok (t, st)
    else
      match fuel with
      | 0 => .error .recursionLimit
      | f + 1 =>
        match findSeen st.seenTypes t with
        | some r => .ok (r, st)
        | none =>
          match cloneTyVisit flags f node.kind t st with
          | .error e => .error e
          | .ok st2 =>
            match findSeen st2.seenTypes t with
            | some r => .ok (r, st2)
            | none => .error .invalid
termination_by (fuel, 0)

def cloneTyVisit (flags : Flags) (fuel : Nat) (k : TyKind) (t : Nat) (st : CloneSt) :
    Except CloneErr CloneSt :=
  match k with
  | .free => defaultCloneT st t ⟨.free, false⟩
  | .err => defaultCloneT st t ⟨.err, false⟩
  | .prim tag => defaultCloneT st t ⟨.prim tag, false⟩
  | .bound target =>
    match cloneType flags fuel target st with
    | .error e => .error e
    | .ok (b2, st1) =>
      if flags.debugLuauCopyBeforeNormalizing then
        let a := addTy st1 ⟨.bound b2, false⟩
        .ok (insertSeenT a.1 t a.2)
      else .ok (insertSeenT st1 t b2)
  | .union opts =>
    if flags.luauCloneCyclicUnions then
      match cloneTypeList flags fuel opts
          (insertSeenT (addTy st ⟨.free, false⟩).1 t (addTy st ⟨.free, false⟩).2) with
      | .error e => .error e
      | .ok (opts2, st3) =>
        .ok (setTy st3 (addTy st ⟨.free, false⟩).2 ⟨.union opts2, false⟩)
    else
      match cloneTypeList flags fuel opts st with
      | .error e => .error e
      | .ok (opts2, st1) =>
        .ok (insertSeenT (addTy st1 ⟨.union opts2, false⟩).1 t
          (addTy st1 ⟨.union opts2, false⟩).2)
  | .table props boundTo =>
    match boundTo with
    | some b =>
      if flags.debugLuauCopyBeforeNormalizing then
        match cloneType flags fuel b
            (insertSeenT (addTy st ⟨.table props (some b), false⟩).1 t
              (addTy st ⟨.table props (some b), false⟩).2) with
        | .error e => .error e
        | .ok (b2, st3) =>
          match cloneProps flags fuel props st3 with
          | .error e => .error e
          | .ok (props2, st4) =>
            .ok (setTy st4 (addTy st ⟨.table props (some b), false⟩).2
              ⟨.table props2 (some b2), false⟩)
      else
        match cloneType flags fuel b st with
        | .error e => .error e
        | .ok (b2, st1) => .ok (insertSeenT st1 t b2)
    | none =>
      match cloneProps flags fuel props
          (insertSeenT (addTy st ⟨.table props none, false⟩).1 t
            (addTy st ⟨.table props none, false⟩).2) with
      | .error e => .error e
      | .ok (props2, st3) =>
        .ok (setTy st3 (addTy st ⟨.table props none, false⟩).2
          ⟨.table props2 none, false⟩)
termination_by (fuel, 1 + sizeOf k)

def cloneTypeList (flags : Flags) (fuel : Nat) (ids : List Nat) (st : CloneSt) :
    Except CloneErr (List Nat × CloneSt) :=
  match ids with
  | [] => .ok ([], st)
  | x :: xs =>
    match cloneType flags fuel x st with
    | .error e => .error e
    | .ok (x2, st1) =>
      match cloneTypeList flags fuel xs st1 with
      | .error e => .error e
      | .ok (xs2, st2) => .ok (x2 :: xs2, st2)
termination_by (fuel, 1 + sizeOf ids)

def cloneProps (flags : Flags) (fuel : Nat) (props : List (String × Nat)) (st : CloneSt) :
    Except CloneErr (List (String × Nat) × CloneSt) :=
  match props with
  | [] => .ok ([], st)
  | (name, ty) :: rest =>
    match cloneType flags fuel ty st with
    | .error e => .error e
    | .ok (ty2, st1) =>
      match cloneProps flags fuel rest st1 with
      | .error e => .error e
      | .ok (rest2, st2) => .ok ((name, ty2) :: rest2, st2)
termination_by (fuel, 1 + sizeOf props)

def cloneTypePack (flags : Flags) (fuel : Nat) (p : Nat) (st : CloneSt) :
    Except CloneErr (Nat × CloneSt) :=
  match st.pmem[p]? with
  | none => .error .invalid
  | some node =>
    if node.persistent then .ok (p, st)
    else
      match fuel with
      | 0 => .error .recursionLimit
      | f + 1 =>
        match findSeen st.seenTypePacks p with
        | some r => .ok (r, st)
        | none =>
          match
            (match node.kind with
            | .errp => defaultCloneP st p ⟨.errp, false⟩
            | .boundp target =>
              match cloneTypePack flags f target st with
              | .error e => .error e
              | .ok (b2, st1) =>
                if flags.debugLuauCopyBeforeNormalizing then
                  .ok (insertSeenP (addPk st1 ⟨.boundp b2, false⟩).1 p
                    (addPk st1 ⟨.boundp b2, false⟩).2)
                else .ok (insertSeenP st1 p b2)
            | .variadic ty hidden =>
              match cloneType flags f ty st with
              | .error e => .error e
              | .ok (ty2, st1) =>
                .ok (insertSeenP (addPk st1 ⟨.variadic ty2 hidden, false⟩).1 p
                  (addPk st1 ⟨.variadic ty2 hidden, false⟩).2)
            | .pack head tail =>
              match cloneTypeList flags f head
                  (insertSeenP (addPk st ⟨.pack [] none, false⟩).1 p
                    (addPk st ⟨.pack [] none, false⟩).2) with
              | .error e => .error e
              | .ok (head2, st3) =>
                match tail with
                | some tl =>
                  match cloneTypePack flags f tl st3 with
                  | .error e => .error e
                  | .ok (tl2, st4) =>
                    .ok (setPk st4 (addPk st ⟨.pack [] none, false⟩).2
                      ⟨.pack head2 (some tl2), false⟩)
                | none =>
                  .ok (setPk st3 (addPk st ⟨.pack [] none, false⟩).2
                    ⟨.pack head2 none, false⟩)) with
          | .error e => .error e
          | .ok st2 =>
            match findSeen st2.seenTypePacks p with
            | some r => .ok (r, st2)
            | none => .error .invalid
termination_by (fuel, 0)

end

/-- Modelled from the spec: the catch site for the cloner's
recursion-limit exception (the module-interface cloning in Module.cpp,
outside the provided sources) substitutes an error node into the output
when the traversal exceeds the limit ("A recursion limit (default 300)
terminates runaway traversal by substituting an error node"). -/
def cloneOrErrorType (flags : Flags) (st : CloneSt) (t : Nat) : Nat × CloneSt :=
  match cloneType flags LuauTypeCloneRecursionLimit t st with
  | .ok (r, st2) => (r, st2)
  | .error _ => ((addTy st ⟨.err, false⟩).2, (addTy st ⟨.err, false⟩).1)

/-! ## TypeChecker2.cpp: embedded validator arms

These embeddings are generic over a type `α` of followed TypeIds.  The
collaborators the validator calls into — isSubtype and tryUnify of the
Unifier, the Normalizer queries, the overload-resolved metamethod — live
outside the provided sources and appear as parameters, so the theorems
hold for every behavior of those collaborators. -/

/-- The diagnostics kinds the embedded arms can produce. -/
inductive TErrData (α : Type) where
  | typesAreUnrelated (computed annotation : α)
  | genericError (msg : String)
  | missingUnionProperty (table : α) (missing : List α) (key : String)
  | cannotExtendTableProperty (table : α) (key : String)
  | unknownProperty (table : α) (key : String)
  | unknownPropButFoundLikeProp (table : α) (key : String) (candidates : List String)
  | normalizationTooComplex
  deriving DecidableEq, Repr

/-- The followed builtin primitive types the arms mention. -/
structure Builtins (α : Type) where
  nilType : α
  booleanType : α
  numberType : α
  stringType : α
  errorRecoveryType : α

/-- ValueContext of TypeChecker2. -/
inductive ValueContext where
  | lvalue
  | rvalue
  deriving DecidableEq, Repr

/-- The comparison and non-comparison binary operators the embedded arms
concern; a restriction of AstExprBinary::Op (Ast.h, outside the provided
sources).  CompareNe is not included: it sits below CompareEq in the
enumeration, so the source's `op >= CompareEq && op <= CompareGe` test —
embedded as isComparisonOp below — never classifies it as a comparison. -/
inductive BinOp where
  | add
  | concat
  | compareEq
  | compareLt
  | compareLe
  | compareGt
  | compareGe
  deriving DecidableEq, Repr

/-- `expr->op >= CompareEq && expr->op <= CompareGe` (TypeChecker2.cpp:1569)
restricted to the operators above. -/
def isComparisonOp : BinOp → Bool
  | .compareEq | .compareLt | .compareLe | .compareGt | .compareGe => true
  | _ => false

/-- AstExprTypeAssertion visit (TypeChecker2.cpp:1840): no diagnostic when
either direction of subtyping holds, otherwise TypesAreUnrelated with the
computed type first, at the expression's location. -/
def visitTypeAssertion (isSub : α → α → Bool) (annotationType computedType : α)
    (exprLoc : Nat) : List (TErrData α × Nat) :=
  if isSub annotationType computedType then []
  else if isSub computedType annotationType then []
  else [(.typesAreUnrelated computedType annotationType, exprLoc)]

/-- AstExprConstantNil visit (TypeChecker2.cpp:1015): the LUAU_ASSERT
condition, true when the assertion passes. -/
def visitConstantNil (isSub : α → α → Bool) (b : Builtins α) (actualType : α) : Bool :=
  isSub actualType b.nilType

/-- AstExprConstantBool visit (TypeChecker2.cpp:1023). -/
def visitConstantBool (isSub : α → α → Bool) (b : Builtins α) (actualType : α) : Bool :=
  isSub actualType b.booleanType

/-- AstExprConstantNumber visit (TypeChecker2.cpp:1031). -/
def visitConstantNumber (isSub : α → α → Bool) (b : Builtins α) (actualType : α) : Bool :=
  isSub actualType b.numberType

/-- AstExprConstantString visit (TypeChecker2.cpp:1039). -/
def visitConstantString (isSub : α → α → Bool) (b : Builtins α) (actualType : α) : Bool :=
  isSub actualType b.stringType

/-- Ground types for concrete instantiations of the arms. -/
inductive STy where
  | nilT
  | booleanT
  | numberT
  | stringT
  | neverT
  | anyT
  | unknownT
  | errorT
  | singletonStr (s : String)
  deriving DecidableEq, Repr

/-- Modelled from the spec: the Unifier's isSubtype (outside the provided
sources) restricted to the ground types above, per §4.B and §8 — it is
reflexive, Any is subtype and supertype of everything, Never is a subtype
of everything, Unknown is a supertype of everything, Error absorbs, and
a string singleton is a subtype of string. -/
def specIsSubtype : STy → STy → Bool
  | _, .anyT => true
  | .anyT, _ => true
  | _, .errorT => true
  | .errorT, _ => true
  | .neverT, _ => true
  | _, .unknownT => true
  | .singletonStr _, .stringT => true
  | a, b => a == b

/-- The builtin primitives over the ground types. -/
def stdBuiltins : Builtins STy :=
  { nilType := .nilT
    booleanType := .booleanT
    numberType := .numberT
    stringType := .stringT
    errorRecoveryType := .errorT }

/-- The two Normalizer queries the relational arm makes on the normalized
left operand. -/
structure NormProps where
  isExactlyNumber : Bool
  isSubtypeOfString : Bool
  deriving DecidableEq, Repr

/-- toString of a binary operator, for the positions where the source
formats it into a message (cosmetic; the claims do not inspect it). -/
def opName : BinOp → String
  | .add => "+"
  | .concat => ".."
  | .compareEq => "=="
  | .compareLt => "<"
  | .compareLe => "<="
  | .compareGt => ">"
  | .compareGe => ">="

/-- The relational-comparison switch arm (TypeChecker2.cpp:1801-1824),
reached when no metamethod dispatched the comparison.  `norm` is the
Normalizer's result on the left operand (none when normalization failed);
`tryU` stands for tryUnify reported at a location. -/
def relationalArm (tryU : Nat → α → α → List (TErrData α × Nat)) (b : Builtins α)
    (toStr : α → String) (op : BinOp) (norm : Option NormProps) (leftTy rightTy : α)
    (rightLoc exprLoc : Nat) : List (TErrData α × Nat) × α :=
  let cannotCompare : List (TErrData α × Nat) :=
    [(.genericError ("Types " ++ toStr leftTy ++ " and " ++ toStr rightTy ++
        " cannot be compared with relational operator " ++ opName op), exprLoc)]
  match norm with
  | some n =>
    if n.isExactlyNumber then (tryU rightLoc rightTy b.numberType, b.numberType)
    else if n.isSubtypeOfString then (tryU rightLoc rightTy b.stringType, b.stringType)
    else (cannotCompare, b.errorRecoveryType)
  | none => (cannotCompare, b.errorRecoveryType)

/-- The observable outcome of the metamethod arm of a binary expression:
the argument pair of the synthesized expected function type, its expected
return (none stands for a fresh type variable), the reported diagnostics,
and the type the arm returns. -/
structure MMArmResult (α : Type) where
  expectedArgs : α × α
  expectedRets : Option α
  errors : List (TErrData α × Nat)
  resultTy : α
  deriving Repr

/-- The metamethod path for a binary operator whose overload-resolved
metamethod is a function (TypeChecker2.cpp:1674-1732).  `retFirst` is
first(ftv->retTypes); `tryU` stands for tryUnify of the metamethod
against the synthesized function type built by `mkFn`; `mmName` is the
metamethod name from kBinaryOpMetamethods. -/
def mmBinaryArm (tryU : α → α → List (TErrData α × Nat)) (isBool : α → Bool)
    (mkFn : α × α → Option α → α) (b : Builtins α) (op : BinOp) (mmName : String)
    (leftTy rightTy mm : α) (retFirst : Option α) (exprLoc : Nat) : MMArmResult α :=
  let expectedArgs :=
    if op = .compareGe || op = .compareGt then (rightTy, leftTy) else (leftTy, rightTy)
  let expectedRets : Option α :=
    if op = .compareEq || op = .compareGe || op = .compareGt || op = .compareLe ||
        op = .compareLt then some b.booleanType
    else none
  let unifyErrors := tryU mm (mkFn expectedArgs expectedRets)
  match retFirst with
  | some ret =>
    if isComparisonOp op then
      if isBool ret then ⟨expectedArgs, expectedRets, unifyErrors, b.booleanType⟩
      else
        ⟨expectedArgs, expectedRets,
          unifyErrors ++
            [(.genericError ("Metamethod " ++ mmName ++ " must return a boolean"), exprLoc)],
          b.booleanType⟩
    else ⟨expectedArgs, expectedRets, unifyErrors, ret⟩
  | none =>
    if isComparisonOp op then
      ⟨expectedArgs, expectedRets,
        unifyErrors ++
          [(.genericError ("Metamethod " ++ mmName ++ " must return a boolean"), exprLoc)],
        b.errorRecoveryType⟩
    else
      ⟨expectedArgs, expectedRets,
        unifyErrors ++
          [(.genericError ("Metamethod " ++ mmName ++ " must return a value"), exprLoc)],
        b.errorRecoveryType⟩

/-- One normalized component as the fetch loop of checkIndexTypeFromType
sees it: the component type, the Normalizer's isInhabited answer, and the
hasIndexTypeFromType answer. -/
structure FetchedComp (α : Type) where
  ty : α
  isInhabited : Bool
  hasProp : Bool
  deriving DecidableEq, Repr

/-- The fetch loop (TypeChecker2.cpp:2253-2262): skip uninhabited
components, accumulate foundOneProp, collect components missing the
property in visit order. -/
def fetchLoop (acc : Bool × List α) : List (FetchedComp α) → Bool × List α
  | [] => acc
  | c :: rest =>
    if c.isInhabited then
      fetchLoop (acc.1 || c.hasProp, if c.hasProp then acc.2 else acc.2 ++ [c.ty]) rest
    else fetchLoop acc rest

/-- ASCII lowercasing of one character, as the per-character tolower the
source's string comparison applies. -/
def lowerChar (c : Char) : Char :=
  if 65 ≤ c.toNat ∧ c.toNat ≤ 90 then Char.ofNat (c.toNat + 32) else c

/-- Modelled from the spec: equalsLower (StringUtils, outside the
provided sources) is the case-insensitive equality the suggestion test
uses ("Suggest close misspellings by case-insensitive equality against
known property names"). -/
def equalsLower (a b : String) : Bool :=
  a.data.map lowerChar == b.data.map lowerChar

/-- diagnoseMissingTableKey (TypeChecker2.cpp:2381), composed with the
UnknownProperty rewrite reportError performs (TypeChecker2.cpp:2218):
candidates are the known property names differing from the key but equal
to it case-insensitively; when any exist the diagnostic is upgraded. -/
def diagnoseMissingTableKey (knownProps : List String) (table : α) (key : String) :
    TErrData α :=
  let candidates := knownProps.filter (fun n => n ≠ key && equalsLower key n)
  if candidates.isEmpty then .unknownProperty table key
  else .unknownPropButFoundLikeProp table key candidates

/-- checkIndexTypeFromType (TypeChecker2.cpp:2241-2316).  `norm` is the
fetch-loop view of the normalized receiver (none when normalization
failed); `tableIsClass` is get of ClassType on the receiver; `knownProps`
are the property names diagnoseMissingTableKey accumulates from the
receiver. -/
def checkIndexTypeFromType (norm : Option (List (FetchedComp α))) (tableTy : α)
    (key : String) (loc : Nat) (context : ValueContext) (tableIsClass : Bool)
    (knownProps : List String) : List (TErrData α × Nat) :=
  match norm with
  | none => [(.normalizationTooComplex, loc)]
  | some comps =>
    let r := fetchLoop (false, []) comps
    if r.2.isEmpty then []
    else if r.1 then [(.missingUnionProperty tableTy r.2 key, loc)]
    else if context = .lvalue && !tableIsClass then
      [(.cannotExtendTableProperty tableTy key, loc)]
    else [(diagnoseMissingTableKey knownProps tableTy key, loc)]

/-! ## CLI/Compile.cpp -/

/-- enum CompileFormat (Compile.cpp). -/
inductive CompileFormat where
  | text
  | binary
  | remarks
  | codegen
  | codegenAsm
  | codegenIr
  | codegenVerbose
  | codegenNull
  | null
  deriving DecidableEq, Repr

/-- getCompileFormat (Compile.cpp:51-75), strcmp chain embedded verbatim,
including the duplicate "text" branch at Compile.cpp:57. -/
def getCompileFormat (name : String) : Option CompileFormat :=
  if name = "text" then some .text
  else if name = "binary" then some .binary
  else if name = "text" then some .text
  else if name = "remarks" then some .remarks
  else if name = "codegen" then some .codegen
  else if name = "codegenasm" then some .codegenAsm
  else if name = "codegenir" then some .codegenIr
  else if name = "codegenverbose" then some .codegenVerbose
  else if name = "codegennull" then some .codegenNull
  else if name = "null" then some .null
  else none

/-- getCompileFormat with the duplicate "text" branch folded away. -/
def getCompileFormatFolded (name : String) : Option CompileFormat :=
  if name = "text" then some .text
  else if name = "binary" then some .binary
  else if name = "remarks" then some .remarks
  else if name = "codegen" then some .codegen
  else if name = "codegenasm" then some .codegenAsm
  else if name = "codegenir" then some .codegenIr
  else if name = "codegenverbose" then some .codegenVerbose
  else if name = "codegennull" then some .codegenNull
  else if name = "null" then some .null
  else none

/-! ## Frontend.h: MTA script types -/

/-- enum class MTAScriptType (Frontend.h:112). -/
inductive MTAScriptType where
  | server
  | client
  | shared
  deriving DecidableEq, Repr

/-- IsMTAScriptTypeMatched (Frontend.h:119-122). -/
def IsMTAScriptTypeMatched (lhsType rhsType : MTAScriptType) : Bool :=
  rhsType == .shared || lhsType == .shared || lhsType == rhsType

/-! ## Distinguished states for the cloner theorems -/

/-- Heap-prefix preservation: every node id valid before a clone step
still resolves to the same node afterwards, and the heap only grows.
This is what "never mutates the source graph" means in the heap model. -/
def TPres (s s2 : CloneSt) : Prop :=
  s.tmem.length ≤ s2.tmem.length ∧ ∀ i, i < s.tmem.length → s2.tmem[i]? = s.tmem[i]?

/-- A one-node heap whose single type is a union containing itself: the
smallest cycle through Union.options. -/
def selfUnionSt : CloneSt := ⟨[⟨.union [0], false⟩], [], [], []⟩

/-- A linear chain of unions of depth n + 1: node i is a union pointing
at node i + 1, node n is a primitive leaf. -/
def chainSt (n : Nat) : CloneSt :=
  ⟨(List.range n).map (fun i => ⟨.union [i + 1], false⟩) ++ [⟨.prim 0, false⟩], [], [], []⟩

/-! ## Theorems -/

theorem tpres_refl (s : CloneSt) : TPres s s := ⟨le_refl _, fun _ _ => rfl⟩

theorem tpres_trans {a b c : CloneSt} (h1 : TPres a b) (h2 : TPres b c) : TPres a c :=
  ⟨le_trans h1.1 h2.1, fun i hi => by rw [h2.2 i (lt_of_lt_of_le hi h1.1), h1.2 i hi]⟩

theorem tpres_of_tmem_eq {a b : CloneSt} (h : b.tmem = a.tmem) : TPres a b :=
  ⟨by rw [h], fun i _ => by rw [h]⟩

theorem tpres_insertSeenT (s : CloneSt) (k v : Nat) : TPres s (insertSeenT s k v) :=
  tpres_of_tmem_eq rfl

theorem tpres_addTy (s : CloneSt) (n : TyNode) : TPres s (addTy s n).1 := by
  refine ⟨by simp [addTy], fun i hi => ?_⟩
  simp [addTy, List.getElem?_append, hi]

theorem tpres_setTy_of {s s3 : CloneSt} (h : TPres s s3) {j : Nat} (hj : s.tmem.length ≤ j)
    (n : TyNode) : TPres s (setTy s3 j n) := by
  refine ⟨by simpa [setTy] using h.1, fun i hi => ?_⟩
  simp only [setTy]
  rw [List.getElem?_set_ne (show j ≠ i by omega), h.2 i hi]

theorem cloneTypeList_tpres_of
    (flags : Flags) (f : Nat)
    (ih : ∀ t st r st2, cloneType flags f t st = .ok (r, st2) → TPres st st2) :
    ∀ ids st rs st2, cloneTypeList flags f ids st = .ok (rs, st2) → TPres st st2 := by
  intro ids
  induction ids with
  | nil =>
    intro st rs st2 h
    rw [cloneTypeList] at h
    simp at h
    exact tpres_of_tmem_eq (by rw [h.2])
  | cons x xs ihx =>
    intro st rs st2 h
    rw [cloneTypeList] at h
    split at h
    · cases h
    · rename_i x2st1 heq1
      split at h
      · cases h
      · rename_i xs2st2 heq2
        simp at h
        obtain ⟨-, rfl⟩ := h
        exact tpres_trans (ih _ _ _ _ heq1) (ihx _ _ _ heq2)

theorem cloneProps_tpres_of
    (flags : Flags) (f : Nat)
    (ih : ∀ t st r st2, cloneType flags f t st = .ok (r, st2) → TPres st st2) :
    ∀ props st rs st2, cloneProps flags f props st = .ok (rs, st2) → TPres st st2 := by
  intro props
  induction props with
  | nil =>
    intro st rs st2 h
    rw [cloneProps] at h
    simp at h
    exact tpres_of_tmem_eq (by rw [h.2])
  | cons p rest ihx =>
    intro st rs st2 h
    rw [cloneProps] at h
    split at h
    · cases h
    · rename_i ty2st1 heq1
      split at h
      · cases h
      · rename_i rest2st2 heq2
        simp at h
        obtain ⟨-, rfl⟩ := h
        exact tpres_trans (ih _ _ _ _ heq1) (ihx _ _ _ heq2)

theorem cloneTyVisit_tpres_of
    (flags : Flags) (f : Nat)
    (ih : ∀ t st r st2, cloneType flags f t st = .ok (r, st2) → TPres st st2) :
    ∀ k t st st2, cloneTyVisit flags f k t st = .ok st2 → TPres st st2 := by
  intro k t st st2 h
  cases k with
  | free =>
    rw [cloneTyVisit] at h
    simp [defaultCloneT] at h
    subst h
    exact tpres_trans (tpres_addTy st _) (tpres_insertSeenT _ _ _)
  | err =>
    rw [cloneTyVisit] at h
    simp [defaultCloneT] at h
    subst h
    exact tpres_trans (tpres_addTy st _) (tpres_insertSeenT _ _ _)
  | prim tag =>
    rw [cloneTyVisit] at h
    simp [defaultCloneT] at h
    subst h
    exact tpres_trans (tpres_addTy st _) (tpres_insertSeenT _ _ _)
  | bound target =>
    rw [cloneTyVisit] at h
    split at h
    · cases h
    · rename_i b2st1 heq1
      have h1 := ih _ _ _ _ heq1
      split at h
      · simp at h
        subst h
        exact tpres_trans h1 (tpres_trans (tpres_addTy _ _) (tpres_insertSeenT _ _ _))
      · simp at h
        subst h
        exact tpres_trans h1 (tpres_insertSeenT _ _ _)
  | union opts =>
    rw [cloneTyVisit] at h
    split at h
    · split at h
      · cases h
      · rename_i opts2st3 heq1
        simp at h
        subst h
        have h0 : TPres st (insertSeenT (addTy st ⟨.free, false⟩).1 t
            (addTy st ⟨.free, false⟩).2) :=
          tpres_trans (tpres_addTy st _) (tpres_insertSeenT _ _ _)
        have h1 := cloneTypeList_tpres_of flags f ih _ _ _ _ heq1
        exact tpres_setTy_of (tpres_trans h0 h1) (by simp [addTy]) _
    · split at h
      · cases h
      · rename_i opts2st1 heq1
        simp at h
        subst h
        have h1 := cloneTypeList_tpres_of flags f ih _ _ _ _ heq1
        exact tpres_trans h1 (tpres_trans (tpres_addTy _ _) (tpres_insertSeenT _ _ _))
  | table props boundTo =>
    rw [cloneTyVisit.eq_def] at h
    simp only [] at h
    split at h
    · rename_i b
      split at h
      · split at h
        · cases h
        · rename_i b2st3 heq1
          split at h
          · cases h
          · rename_i props2st4 heq2
            simp at h
            subst h
            have h0 : TPres st (insertSeenT (addTy st ⟨.table props (some b), false⟩).1 t
                (addTy st ⟨.table props (some b), false⟩).2) :=
              tpres_trans (tpres_addTy st _) (tpres_insertSeenT _ _ _)
            have h1 := ih _ _ _ _ heq1
            have h2 := cloneProps_tpres_of flags f ih _ _ _ _ heq2
            exact tpres_setTy_of (tpres_trans h0 (tpres_trans h1 h2)) (by simp [addTy]) _
      · split at h
        · cases h
        · rename_i b2st1 heq1
          simp at h
          subst h
          exact tpres_trans (ih _ _ _ _ heq1) (tpres_insertSeenT _ _ _)
    · split at h
      · cases h
      · rename_i props2st3 heq1
        simp at h
        subst h
        have h0 : TPres st (insertSeenT (addTy st ⟨.table props none, false⟩).1 t
            (addTy st ⟨.table props none, false⟩).2) :=
          tpres_trans (tpres_addTy st _) (tpres_insertSeenT _ _ _)
        have h1 := cloneProps_tpres_of flags f ih _ _ _ _ heq1
        exact tpres_setTy_of (tpres_trans h0 h1) (by simp [addTy]) _

theorem cloneType_tpres :
    ∀ (fuel : Nat) (flags : Flags) (t : Nat) (st : CloneSt) (r : Nat) (st2 : CloneSt),
      cloneType flags fuel t st = .ok (r, st2) → TPres st st2 := by
  intro fuel
  induction fuel with
  | zero =>
    intro flags t st r st2 h
    rw [cloneType] at h
    split at h
    · cases h
    · split at h
      · simp at h
        exact tpres_of_tmem_eq (by rw [h.2])
      · cases h
  | succ f ih =>
    intro flags t st r st2 h
    rw [cloneType] at h
    split at h
    · cases h
    · split at h
      · simp at h
        exact tpres_of_tmem_eq (by rw [h.2])
      · split at h
        · cases h
        · rename_i f2 heqf
          obtain rfl : f2 = f := by omega
          split at h
          · simp at h
            exact tpres_of_tmem_eq (by rw [h.2])
          · split at h
            · cases h
            · rename_i st2v heqv
              split at h
              · simp at h
                obtain ⟨-, rfl⟩ := h
                exact cloneTyVisit_tpres_of flags f2 (ih flags) _ _ _ _ heqv
              · cases h

theorem cloneType_ok_seen
    (flags : Flags) (fuel : Nat) (t : Nat) (st : CloneSt) (node : TyNode) (r : Nat)
    (st2 : CloneSt) (hn : st.tmem[t]? = some node) (hp : node.persistent = false)
    (h : cloneType flags fuel t st = .ok (r, st2)) :
    findSeen st2.seenTypes t = some r := by
  cases fuel with
  | zero =>
    rw [cloneType, hn] at h
    simp [hp] at h
  | succ f =>
    rw [cloneType, hn] at h
    simp only [hp, Bool.false_eq_true, if_false] at h
    split at h
    · rename_i r0 heq0
      simp at h
      obtain ⟨rfl, rfl⟩ := h
      exact heq0
    · split at h
      · cases h
      · rename_i st2v heqv
        split at h
        · rename_i r0 heq0
          simp at h
          obtain ⟨rfl, rfl⟩ := h
          exact heq0
        · cases h

theorem cloneType_share
    (flags : Flags) (fuel fuel2 : Nat) (st : CloneSt) (t : Nat) (node : TyNode)
    (r : Nat) (st2 : CloneSt) (hn : st.tmem[t]? = some node) (hp : node.persistent = false)
    (h : cloneType flags fuel t st = .ok (r, st2)) (hf : 0 < fuel2) :
    cloneType flags fuel2 t st2 = .ok (r, st2) := by
  have hpres := cloneType_tpres fuel flags t st r st2 h
  have hlt : t < st.tmem.length := (List.getElem?_eq_some.mp hn).1
  have hn2 : st2.tmem[t]? = some node := by rw [hpres.2 t hlt, hn]
  have hseen := cloneType_ok_seen flags fuel t st node r st2 hn hp h
  obtain ⟨f2, rfl⟩ : ∃ f2, fuel2 = f2 + 1 := ⟨fuel2 - 1, by omega⟩
  rw [cloneType, hn2]
  simp [hp, hseen]

theorem selfUnion_err :
    ∀ f, cloneType defaultFlags f 0 selfUnionSt = .error .recursionLimit := by
  intro f
  induction f with
  | zero => simp [cloneType, selfUnionSt]
  | succ f ih =>
    simp only [selfUnionSt, defaultFlags] at ih ⊢
    rw [cloneType]
    simp [findSeen, cloneTypeList, cloneTyVisit, ih]

theorem selfUnion_cyclic_ok :
    cloneType cyclicUnionFlags LuauTypeCloneRecursionLimit 0 selfUnionSt =
      .ok (1, ⟨[⟨.union [0], false⟩, ⟨.union [1], false⟩], [], [(0, 1)], []⟩) := by
  simp [cloneType, cloneTyVisit, cloneTypeList, cyclicUnionFlags, selfUnionSt,
    LuauTypeCloneRecursionLimit, addTy, insertSeenT, findSeen, setTy]

theorem chainSt_get_lt (n i : Nat) (h : i < n) :
    (chainSt n).tmem[i]? = some ⟨.union [i + 1], false⟩ := by
  simp [chainSt, List.getElem?_append, h, List.getElem?_map, List.getElem?_range]

theorem chainSt_get_last (n : Nat) : (chainSt n).tmem[n]? = some ⟨.prim 0, false⟩ := by
  simp [chainSt, List.getElem?_append_right, List.length_map, List.length_range]

theorem chain_clone_err (n : Nat) :
    ∀ f i, i + f ≤ n → cloneType defaultFlags f i (chainSt n) = .error .recursionLimit := by
  intro f
  induction f with
  | zero =>
    intro i hi
    rcases Nat.lt_or_ge i n with h | h
    · rw [cloneType, chainSt_get_lt n i h]
      simp
    · have : i = n := Nat.le_antisymm (by omega) h
      subst this
      rw [cloneType, chainSt_get_last]
      simp
  | succ f ih =>
    intro i hi
    have h : i < n := by omega
    rw [cloneType, chainSt_get_lt n i h]
    simp only [defaultFlags]
    have ih2 := ih (i + 1) (by omega)
    simp only [defaultFlags] at ih2
    simp [findSeen, cloneTypeList, cloneTyVisit, ih2]

/-- C1: clone (Clone.cpp:470, Clone.cpp:488) returns a persistent node's
own identity for any destination arena and fuel, leaving the entire state
(both heaps and both seen-maps) untouched: no copy is allocated and the
node is not mutated.  Stated for type nodes and for type-pack nodes. -/
theorem clone_persistent_identity :
    (∀ (flags : Flags) (fuel : Nat) (st : CloneSt) (t : Nat) (node : TyNode),
      st.tmem[t]? = some node → node.persistent = true →
      cloneType flags fuel t st = .ok (t, st)) ∧
    (∀ (flags : Flags) (fuel : Nat) (st : CloneSt) (p : Nat) (node : PackNode),
      st.pmem[p]? = some node → node.persistent = true →
      cloneTypePack flags fuel p st = .ok (p, st)) := by
  constructor
  · intro flags fuel st t node h hp
    rw [cloneType, h]
    simp [hp]
  · intro flags fuel st p node h hp
    rw [cloneTypePack, h]
    simp [hp]

/-- Witness for C1 at a one-node heap: a persistent primitive type and a
persistent error pack each clone to themselves with the state unchanged. -/
theorem clone_persistent_identity_w :
    cloneType defaultFlags 0 0 ⟨[⟨.prim 3, true⟩], [], [], []⟩ =
        .ok (0, ⟨[⟨.prim 3, true⟩], [], [], []⟩) ∧
      cloneTypePack defaultFlags 0 0 ⟨[], [⟨.errp, true⟩], [], []⟩ =
        .ok (0, ⟨[], [⟨.errp, true⟩], [], []⟩) :=
  ⟨clone_persistent_identity.1 defaultFlags 0 _ 0 ⟨.prim 3, true⟩ rfl rfl,
   clone_persistent_identity.2 defaultFlags 0 _ 0 ⟨.errp, true⟩ rfl rfl⟩

/-- C2 counterexample: under the default flags (LuauCloneCyclicUnions off,
Clone.cpp:14), cloning the one-node cycle through Union.options does not
produce an isomorphic graph at all - the traversal re-enters the union
until the recursion limit and fails with the recursion-limit error. -/
theorem clone_union_cycle_hits_limit :
    cloneType defaultFlags LuauTypeCloneRecursionLimit 0 selfUnionSt =
      .error .recursionLimit :=
  selfUnion_err LuauTypeCloneRecursionLimit

/-- C2 amended: sharing is preserved - after a successful clone of a
non-persistent node, cloning the same source node again in the same
CloneState returns the very same destination node and performs no
allocation or mutation (the state is returned unchanged).  Cycles through
Union.options are preserved only when LuauCloneCyclicUnions is on: the
self-union then clones to a destination union whose option is itself. -/
theorem clone_sharing_and_flagged_union_cycle :
    (∀ (flags : Flags) (fuel fuel2 : Nat) (st : CloneSt) (t : Nat) (node : TyNode)
      (r : Nat) (st2 : CloneSt), st.tmem[t]? = some node → node.persistent = false →
      cloneType flags fuel t st = .ok (r, st2) → 0 < fuel2 →
      cloneType flags fuel2 t st2 = .ok (r, st2)) ∧
    cloneType cyclicUnionFlags LuauTypeCloneRecursionLimit 0 selfUnionSt =
      .ok (1, ⟨[⟨.union [0], false⟩, ⟨.union [1], false⟩], [], [(0, 1)], []⟩) := by
  refine ⟨?_, selfUnion_cyclic_ok⟩
  intro flags fuel fuel2 st t node r st2 hn hp h hf
  exact cloneType_share flags fuel fuel2 st t node r st2 hn hp h hf

/-- Witness for C2 amended: on a one-node heap the primitive clones to
node 1, and a second clone of node 0 returns node 1 again with the state
unchanged. -/
theorem clone_sharing_and_flagged_union_cycle_w :
    cloneType defaultFlags 5 0 ⟨[⟨.prim 7, false⟩, ⟨.prim 7, false⟩], [], [(0, 1)], []⟩ =
      .ok (1, ⟨[⟨.prim 7, false⟩, ⟨.prim 7, false⟩], [], [(0, 1)], []⟩) := by
  have h1 : cloneType defaultFlags 2 0 ⟨[⟨.prim 7, false⟩], [], [], []⟩ =
      .ok (1, ⟨[⟨.prim 7, false⟩, ⟨.prim 7, false⟩], [], [(0, 1)], []⟩) := by
    simp [cloneType, cloneTyVisit, defaultCloneT, addTy, insertSeenT, findSeen]
  exact clone_sharing_and_flagged_union_cycle.1 defaultFlags 2 5
    ⟨[⟨.prim 7, false⟩], [], [], []⟩ 0 ⟨.prim 7, false⟩ 1
    ⟨[⟨.prim 7, false⟩, ⟨.prim 7, false⟩], [], [(0, 1)], []⟩ rfl rfl h1 (by omega)

/-- C3: the recursion-limit constant defaults to 300 (Clone.cpp:13);
whenever the cloner's traversal exceeds the limit and fails, the
catch-site wrapper substitutes a fresh error node into the output; and
the 301-deep union chain is a concrete graph whose traversal does exceed
the default limit. -/
theorem clone_recursion_limit_error_sub :
    LuauTypeCloneRecursionLimit = 300 ∧
    (∀ (flags : Flags) (st : CloneSt) (t : Nat) (e : CloneErr),
      cloneType flags LuauTypeCloneRecursionLimit t st = .error e →
      (cloneOrErrorType flags st t).1 = st.tmem.length ∧
      (cloneOrErrorType flags st t).2.tmem[st.tmem.length]? = some ⟨.err, false⟩) ∧
    cloneType defaultFlags LuauTypeCloneRecursionLimit 0 (chainSt 300) =
      .error .recursionLimit := by
  refine ⟨rfl, ?_, chain_clone_err 300 300 0 (by omega)⟩
  intro flags st t e h
  rw [cloneOrErrorType, h]
  constructor
  · rfl
  · simp [addTy, List.getElem?_append_right]

/-- Witness for C3: cloning the 301-deep chain with the default limit
substitutes the error node allocated at the end of the heap. -/
theorem clone_recursion_limit_error_sub_w :
    (cloneOrErrorType defaultFlags (chainSt 300) 0).1 = (chainSt 300).tmem.length ∧
    (cloneOrErrorType defaultFlags (chainSt 300) 0).2.tmem[(chainSt 300).tmem.length]? =
      some ⟨.err, false⟩ :=
  clone_recursion_limit_error_sub.2.1 defaultFlags (chainSt 300) 0 .recursionLimit
    clone_recursion_limit_error_sub.2.2

/-- C4: the type-assertion visit (TypeChecker2.cpp:1840) reports nothing
exactly when either direction of subtyping holds between annotation and
computed type, and reports TypesAreUnrelated (computed type first) at the
expression's location exactly when neither direction holds - for every
behavior of the underlying isSubtype. -/
theorem typeAssertion_unrelated_iff {α : Type} (isSub : α → α → Bool)
    (annotationType computedType : α) (exprLoc : Nat) :
    (visitTypeAssertion isSub annotationType computedType exprLoc = [] ↔
      (isSub annotationType computedType = true ∨ isSub computedType annotationType = true)) ∧
    (visitTypeAssertion isSub annotationType computedType exprLoc =
        [(.typesAreUnrelated computedType annotationType, exprLoc)] ↔
      (isSub annotationType computedType = false ∧ isSub computedType annotationType = false)) := by
  unfold visitTypeAssertion
  cases h1 : isSub annotationType computedType <;>
    cases h2 : isSub computedType annotationType <;> simp

/-- C6: the relational arm (TypeChecker2.cpp:1801) decides from the
normalized left operand: exactly-number forces the right operand to unify
with number and returns number; otherwise subtype-of-string forces string
and returns string; otherwise it reports the cannot-compare GenericError
at the expression location and returns the error-recovery type. -/
theorem relational_number_string_decision {α : Type}
    (tryU : Nat → α → α → List (TErrData α × Nat)) (b : Builtins α) (toStr : α → String)
    (op : BinOp) (n : NormProps) (leftTy rightTy : α) (rightLoc exprLoc : Nat) :
    (n.isExactlyNumber = true →
      relationalArm tryU b toStr op (some n) leftTy rightTy rightLoc exprLoc =
        (tryU rightLoc rightTy b.numberType, b.numberType)) ∧
    (n.isExactlyNumber = false → n.isSubtypeOfString = true →
      relationalArm tryU b toStr op (some n) leftTy rightTy rightLoc exprLoc =
        (tryU rightLoc rightTy b.stringType, b.stringType)) ∧
    (n.isExactlyNumber = false → n.isSubtypeOfString = false →
      relationalArm tryU b toStr op (some n) leftTy rightTy rightLoc exprLoc =
        ([(.genericError ("Types " ++ toStr leftTy ++ " and " ++ toStr rightTy ++
            " cannot be compared with relational operator " ++ opName op), exprLoc)],
          b.errorRecoveryType)) := by
  refine ⟨fun h1 => ?_, fun h1 h2 => ?_, fun h1 h2 => ?_⟩ <;>
    simp [relationalArm, h1]
  · simp [h2]
  · simp [h2]

/-- Witness for C6: an exactly-number left operand makes a less-than
comparison unify the right operand against number and yield number. -/
theorem relational_number_string_decision_w :
    (NormProps.mk true false).isExactlyNumber = true ∧
    relationalArm (fun _ _ _ => []) stdBuiltins (fun _ => "t") .compareLt
        (some ⟨true, false⟩) STy.numberT STy.numberT 1 2 =
      ([], STy.numberT) :=
  ⟨rfl, (relational_number_string_decision (fun _ _ _ => []) stdBuiltins (fun _ => "t")
    .compareLt ⟨true, false⟩ STy.numberT STy.numberT 1 2).1 rfl⟩

/-- C8 counterexample: the constant-nil visit (TypeChecker2.cpp:1015)
asserts isSubtype of the stored type against nil, not equality: with the
spec's subtype relation the assertion passes for the stored type Never,
which is not equal to the nil primitive, so the asserted predicate is not
equality with the corresponding primitive. -/
theorem constantNil_assert_not_equality :
    visitConstantNil specIsSubtype stdBuiltins STy.neverT = true ∧
    STy.neverT ≠ stdBuiltins.nilType := by
  refine ⟨rfl, ?_⟩
  intro h
  cases h

/-- C8 amended: each constant visit (TypeChecker2.cpp:1015-1045) asserts
that the stored type is a subtype of the corresponding primitive, for
every behavior of isSubtype; under the spec's subtype relation the
assertion in particular holds when the stored type is exactly that
primitive, or a proper subtype such as a string singleton. -/
theorem constant_visits_assert_subtype {α : Type} (isSub : α → α → Bool) (b : Builtins α)
    (actualType : α) :
    visitConstantNil isSub b actualType = isSub actualType b.nilType ∧
    visitConstantBool isSub b actualType = isSub actualType b.booleanType ∧
    visitConstantNumber isSub b actualType = isSub actualType b.numberType ∧
    visitConstantString isSub b actualType = isSub actualType b.stringType ∧
    visitConstantNil specIsSubtype stdBuiltins stdBuiltins.nilType = true ∧
    visitConstantString specIsSubtype stdBuiltins (STy.singletonStr "foo") = true :=
  ⟨rfl, rfl, rfl, rfl, rfl, rfl⟩

/-- C7 counterexample: a metamethod-based less-than comparison whose
metamethod returns no value yields the error-recovery type, not boolean,
so the result of a metamethod-based comparison is not always coerced to
boolean. -/
theorem mmComparison_noret_not_boolean :
    (mmBinaryArm (fun _ _ => ([] : List (TErrData STy × Nat))) (fun t => t == STy.booleanT)
        (fun _ _ => STy.errorT) stdBuiltins .compareLt "__lt" STy.numberT STy.numberT
        STy.errorT none 0).resultTy = stdBuiltins.errorRecoveryType ∧
    stdBuiltins.errorRecoveryType ≠ stdBuiltins.booleanType ∧
    isComparisonOp .compareLt = true := by
  refine ⟨rfl, by decide, rfl⟩

/-- C7 amended: in the metamethod arm (TypeChecker2.cpp:1674), greater
and greater-equal build the expected argument pack with the operands
swapped while the other comparisons keep them in order; the expected
return of a comparison is boolean; when the metamethod returns a value
the comparison's result is coerced to boolean, with a GenericError when
that value's type is not boolean and only the unify diagnostics when it
is; when it returns no value the GenericError is emitted and the result
is the error-recovery type. -/
theorem mmComparison_behavior {α : Type} (tryU : α → α → List (TErrData α × Nat))
    (isBool : α → Bool) (mkFn : α × α → Option α → α) (b : Builtins α) (op : BinOp)
    (mmName : String) (leftTy rightTy mm : α) (retFirst : Option α) (ret : α)
    (exprLoc : Nat) :
    ((op = .compareGt ∨ op = .compareGe) →
      (mmBinaryArm tryU isBool mkFn b op mmName leftTy rightTy mm retFirst exprLoc).expectedArgs =
        (rightTy, leftTy)) ∧
    ((op = .compareEq ∨ op = .compareLt ∨ op = .compareLe) →
      (mmBinaryArm tryU isBool mkFn b op mmName leftTy rightTy mm retFirst exprLoc).expectedArgs =
        (leftTy, rightTy)) ∧
    (isComparisonOp op = true →
      (mmBinaryArm tryU isBool mkFn b op mmName leftTy rightTy mm retFirst exprLoc).expectedRets =
        some b.booleanType) ∧
    (isComparisonOp op = true → retFirst = some ret →
      (mmBinaryArm tryU isBool mkFn b op mmName leftTy rightTy mm retFirst exprLoc).resultTy =
        b.booleanType) ∧
    (isComparisonOp op = true → retFirst = some ret → isBool ret = false →
      (TErrData.genericError ("Metamethod " ++ mmName ++ " must return a boolean"), exprLoc) ∈
        (mmBinaryArm tryU isBool mkFn b op mmName leftTy rightTy mm retFirst exprLoc).errors) ∧
    (isComparisonOp op = true → retFirst = some ret → isBool ret = true →
      (mmBinaryArm tryU isBool mkFn b op mmName leftTy rightTy mm retFirst exprLoc).errors =
        tryU mm (mkFn
          (mmBinaryArm tryU isBool mkFn b op mmName leftTy rightTy mm retFirst exprLoc).expectedArgs
          (mmBinaryArm tryU isBool mkFn b op mmName leftTy rightTy mm retFirst exprLoc).expectedRets)) ∧
    (isComparisonOp op = true → retFirst = none →
      (TErrData.genericError ("Metamethod " ++ mmName ++ " must return a boolean"), exprLoc) ∈
        (mmBinaryArm tryU isBool mkFn b op mmName leftTy rightTy mm retFirst exprLoc).errors ∧
      (mmBinaryArm tryU isBool mkFn b op mmName leftTy rightTy mm retFirst exprLoc).resultTy =
        b.errorRecoveryType) := by
  refine ⟨?_, ?_, ?_, ?_, ?_, ?_, ?_⟩
  · intro h
    rcases h with rfl | rfl <;>
      (cases retFirst with
       | none => simp [mmBinaryArm, isComparisonOp]
       | some rv => cases hb : isBool rv <;> simp [mmBinaryArm, isComparisonOp, hb])
  · intro h
    rcases h with rfl | rfl | rfl <;>
      (cases retFirst with
       | none => simp [mmBinaryArm, isComparisonOp]
       | some rv => cases hb : isBool rv <;> simp [mmBinaryArm, isComparisonOp, hb])
  · intro h
    cases op
    case add => simp [isComparisonOp] at h
    case concat => simp [isComparisonOp] at h
    all_goals
      cases retFirst with
      | none => simp [mmBinaryArm, isComparisonOp]
      | some rv => cases hb : isBool rv <;> simp [mmBinaryArm, isComparisonOp, hb]
  · intro h hr
    subst hr
    cases op
    case add => simp [isComparisonOp] at h
    case concat => simp [isComparisonOp] at h
    all_goals cases hb : isBool ret <;> simp [mmBinaryArm, isComparisonOp, hb]
  · intro h hr hb
    subst hr
    cases op
    case add => simp [isComparisonOp] at h
    case concat => simp [isComparisonOp] at h
    all_goals simp [mmBinaryArm, isComparisonOp, hb]
  · intro h hr hb
    subst hr
    cases op
    case add => simp [isComparisonOp] at h
    case concat => simp [isComparisonOp] at h
    all_goals simp [mmBinaryArm, isComparisonOp, hb]
  · intro h hr
    subst hr
    cases op
    case add => simp [isComparisonOp] at h
    case concat => simp [isComparisonOp] at h
    all_goals simp [mmBinaryArm, isComparisonOp]

/-- Witness for C7 amended: a greater-than comparison swaps the operand
order in the expected arguments and, with a boolean-returning metamethod,
yields boolean. -/
theorem mmComparison_behavior_w :
    ((BinOp.compareGt = BinOp.compareGt ∨ BinOp.compareGt = BinOp.compareGe) ∧
      (mmBinaryArm (fun _ _ => ([] : List (TErrData STy × Nat))) (fun t => t == STy.booleanT)
        (fun _ _ => STy.errorT) stdBuiltins .compareGt "__lt" STy.numberT STy.stringT
        STy.errorT (some STy.booleanT) 0).expectedArgs = (STy.stringT, STy.numberT)) ∧
    (mmBinaryArm (fun _ _ => ([] : List (TErrData STy × Nat))) (fun t => t == STy.booleanT)
        (fun _ _ => STy.errorT) stdBuiltins .compareGt "__lt" STy.numberT STy.stringT
        STy.errorT (some STy.booleanT) 0).resultTy = stdBuiltins.booleanType :=
  ⟨⟨Or.inl rfl,
    (mmComparison_behavior (fun _ _ => ([] : List (TErrData STy × Nat)))
      (fun t => t == STy.booleanT) (fun _ _ => STy.errorT) stdBuiltins .compareGt "__lt"
      STy.numberT STy.stringT STy.errorT (some STy.booleanT) STy.booleanT 0).1 (Or.inl rfl)⟩,
    (mmComparison_behavior (fun _ _ => ([] : List (TErrData STy × Nat)))
      (fun t => t == STy.booleanT) (fun _ _ => STy.errorT) stdBuiltins .compareGt "__lt"
      STy.numberT STy.stringT STy.errorT (some STy.booleanT) STy.booleanT 0).2.2.2.1 rfl rfl⟩

theorem fetchLoop_found {α : Type} (acc : Bool × List α) (cs : List (FetchedComp α)) :
    (fetchLoop acc cs).1 = (acc.1 || cs.any fun c => c.isInhabited && c.hasProp) := by
  induction cs generalizing acc with
  | nil => simp [fetchLoop]
  | cons c rest ih =>
    cases hc : c.isInhabited <;> cases hp : c.hasProp <;>
      simp [fetchLoop, hc, hp, ih, Bool.or_assoc]

theorem fetchLoop_missing {α : Type} (acc : Bool × List α) (cs : List (FetchedComp α)) :
    (fetchLoop acc cs).2 =
      acc.2 ++ (cs.filter fun c => c.isInhabited && !c.hasProp).map (fun c => c.ty) := by
  induction cs generalizing acc with
  | nil => simp [fetchLoop]
  | cons c rest ih =>
    cases hc : c.isInhabited <;> cases hp : c.hasProp <;>
      simp [fetchLoop, hc, hp, ih]

/-- C5: property lookup on a normalized receiver
(TypeChecker2.cpp:2241-2316, 2381-2412): when some but not all inhabited
components carry the property the single diagnostic is
MissingUnionProperty listing the inhabited components missing it; when no
inhabited component carries it and the context is an LValue on a
non-class receiver it is CannotExtendTable for the property; otherwise it
is UnknownProperty, upgraded to UnknownPropButFoundLikeProp exactly when
some known property name differs from the key but equals it
case-insensitively. -/
theorem checkIndex_error_selection {α : Type} (comps : List (FetchedComp α)) (tableTy : α)
    (key : String) (loc : Nat) (context : ValueContext) (tableIsClass : Bool)
    (knownProps : List String) :
    ((comps.any fun c => c.isInhabited && c.hasProp) = true →
      (comps.filter fun c => c.isInhabited && !c.hasProp) ≠ [] →
      checkIndexTypeFromType (some comps) tableTy key loc context tableIsClass knownProps =
        [(.missingUnionProperty tableTy
            ((comps.filter fun c => c.isInhabited && !c.hasProp).map fun c => c.ty) key, loc)]) ∧
    ((comps.any fun c => c.isInhabited && c.hasProp) = false →
      (comps.filter fun c => c.isInhabited && !c.hasProp) ≠ [] →
      context = .lvalue → tableIsClass = false →
      checkIndexTypeFromType (some comps) tableTy key loc context tableIsClass knownProps =
        [(.cannotExtendTableProperty tableTy key, loc)]) ∧
    ((comps.any fun c => c.isInhabited && c.hasProp) = false →
      (comps.filter fun c => c.isInhabited && !c.hasProp) ≠ [] →
      (context = .rvalue ∨ tableIsClass = true) →
      checkIndexTypeFromType (some comps) tableTy key loc context tableIsClass knownProps =
        [(diagnoseMissingTableKey knownProps tableTy key, loc)]) ∧
    ((knownProps.filter fun n2 => n2 ≠ key && equalsLower key n2) = [] →
      diagnoseMissingTableKey knownProps tableTy key = .unknownProperty tableTy key) ∧
    ((knownProps.filter fun n2 => n2 ≠ key && equalsLower key n2) ≠ [] →
      diagnoseMissingTableKey knownProps tableTy key =
        .unknownPropButFoundLikeProp tableTy key
          (knownProps.filter fun n2 => n2 ≠ key && equalsLower key n2)) := by
  refine ⟨?_, ?_, ?_, ?_, ?_⟩
  · intro hf hm
    simp [checkIndexTypeFromType, fetchLoop_found, fetchLoop_missing, hf, hm]
  · intro hf hm hc hcl
    simp [checkIndexTypeFromType, fetchLoop_found, fetchLoop_missing, hf, hm, hc, hcl]
  · intro hf hm hor
    rcases hor with hc | hc <;>
      simp [checkIndexTypeFromType, fetchLoop_found, fetchLoop_missing, hf, hm, hc]
  · intro he
    simp only [diagnoseMissingTableKey, he]
    simp
  · intro he
    simp only [diagnoseMissingTableKey]
    rw [if_neg (fun hx => he (List.isEmpty_iff.mp hx))]

/-- Witness for C5: a receiver whose inhabited components are a
property-carrying number part and a property-missing string part yields
MissingUnionProperty, and a known property differing only in case
upgrades the missing-key diagnostic to a suggestion. -/
theorem checkIndex_error_selection_w :
    ((([⟨STy.numberT, true, true⟩, ⟨STy.stringT, true, false⟩] :
        List (FetchedComp STy)).any fun c => c.isInhabited && c.hasProp) = true ∧
      checkIndexTypeFromType
          (some [⟨STy.numberT, true, true⟩, ⟨STy.stringT, true, false⟩]) STy.stringT "foo" 9
          .rvalue false ["bar"] =
        [(.missingUnionProperty STy.stringT [STy.stringT] "foo", 9)]) ∧
    diagnoseMissingTableKey ["Foo"] STy.stringT "foo" =
      .unknownPropButFoundLikeProp STy.stringT "foo" ["Foo"] := by
  constructor
  · constructor
    · decide
    · have := (checkIndex_error_selection
          ([⟨STy.numberT, true, true⟩, ⟨STy.stringT, true, false⟩] : List (FetchedComp STy))
          STy.stringT "foo" 9 .rvalue false ["bar"]).1 rfl (by decide)
      simpa using this
  · have h5 := (checkIndex_error_selection ([] : List (FetchedComp STy)) STy.stringT "foo" 9
        .rvalue false ["Foo"]).2.2.2.2 (by decide)
    rw [h5]
    have hf : (["Foo"].filter fun n2 => n2 ≠ "foo" && equalsLower "foo" n2) = ["Foo"] := by
      decide
    rw [hf]

/-- C9: getCompileFormat (Compile.cpp:51) contains a duplicate "text"
branch (Compile.cpp:57); folding the duplicate away yields an
extensionally equal function: every name maps to the same optional
format. -/
theorem getCompileFormat_fold_eq (name : String) :
    getCompileFormat name = getCompileFormatFolded name := by
  unfold getCompileFormat getCompileFormatFolded
  split_ifs <;> rfl

/-- C10: IsMTAScriptTypeMatched (Frontend.h:119) is commutative, and it
returns true exactly when at least one side is Shared or both sides are
equal. -/
theorem isMTAScriptTypeMatched_comm_iff :
    (∀ a b, IsMTAScriptTypeMatched a b = IsMTAScriptTypeMatched b a) ∧
    (∀ a b, IsMTAScriptTypeMatched a b = true ↔
      a = MTAScriptType.shared ∨ b = MTAScriptType.shared ∨ a = b) := by
  constructor
  · intro a b
    cases a <;> cases b <;> rfl
  · intro a b
    cases a <;> cases b <;> simp [IsMTAScriptTypeMatched]

end Luau
